import Mathlib

/-!
Verification of `src/igvm_params.rs` (IGVM parameter-block decoding for an
SVSM boot stage): a shallow embedding of the `IgvmParams` façade and its
queries, followed by theorems settling the specification claims.

Machine arithmetic: the target is a 64-bit kernel built in release mode, so
`u64`/`usize` addition and multiplication wrap modulo 2^64 (the explicit
wraparound guard in `get_memory_regions` only makes sense under wrapping
semantics).  Machine integers are modelled as `Nat` with explicit `% 2^64`
where overflow matters.
-/

namespace Svsm

/-- Modelled from the spec: the machine page size (`crate::mm::PAGE_SIZE`,
outside `src/`); one 4 KiB machine page. -/
def PAGE_SIZE : Nat := 4096

/-- Modelled from the spec: the byte size of one fixed-size memory-map entry
of the IGVM wire format (`igvm_defs::IGVM_VHS_MEMORY_MAP_ENTRY`: a `u64`
starting page number, a `u64` page count, a `u16` entry type, a `u16` flags
word and a `u32` reserved word — 24 bytes). -/
def SIZEOF_MEMORY_MAP_ENTRY : Nat := 24

/-- `IGVM_MEMORY_ENTRIES_PER_PAGE = PAGE_SIZE / size_of::<IGVM_VHS_MEMORY_MAP_ENTRY>()`. -/
def IGVM_MEMORY_ENTRIES_PER_PAGE : Nat := PAGE_SIZE / SIZEOF_MEMORY_MAP_ENTRY

/-- The modulus of 64-bit machine arithmetic. -/
def U64_LIMIT : Nat := 2 ^ 64

/-- Modelled from the spec: the `u16` entry-type enumerant of the IGVM wire
format (`igvm_defs::MemoryMapEntryType`, an open enum over `u16`); the module
only distinguishes the value `MEMORY`. -/
structure MemoryMapEntryType where
  value : Nat
deriving DecidableEq, Repr, Inhabited

/-- "Usable memory" entry type (`MemoryMapEntryType::MEMORY = 0x0`). -/
def MemoryMapEntryType.MEMORY : MemoryMapEntryType := ⟨0⟩

/-- A reserved entry type distinct from `MEMORY`
(`MemoryMapEntryType::PLATFORM_RESERVED = 0x1`). -/
def MemoryMapEntryType.PLATFORM_RESERVED : MemoryMapEntryType := ⟨1⟩

/-- One memory-map table entry (`igvm_defs::IGVM_VHS_MEMORY_MAP_ENTRY`);
the two `u64` fields are modelled as `Nat` holding values below `2^64`. -/
structure IGVM_VHS_MEMORY_MAP_ENTRY where
  starting_gpa_page_number : Nat
  number_of_pages : Nat
  entry_type : MemoryMapEntryType
deriving DecidableEq, Repr, Inhabited

/-- An entirely-zero table slot (zero page count: the end-of-list sentinel). -/
def zeroEntry : IGVM_VHS_MEMORY_MAP_ENTRY :=
  ⟨0, 0, MemoryMapEntryType.MEMORY⟩

/-- `IgvmMemoryMap`: a fixed-capacity array of entries filling exactly one
page (`[IGVM_VHS_MEMORY_MAP_ENTRY; IGVM_MEMORY_ENTRIES_PER_PAGE]`), modelled
as a list whose length is pinned to the capacity. -/
structure IgvmMemoryMap where
  memory_map : List IGVM_VHS_MEMORY_MAP_ENTRY
  size_eq : memory_map.length = IGVM_MEMORY_ENTRIES_PER_PAGE

/-- Modelled from the spec: the parameter header (`igvm_params::IgvmParamBlock`,
outside `src/`) — byte offsets to the secondary header and the memory-map
table, the total parameter-area size, the kernel region, and the two
special-page addresses. -/
structure IgvmParamBlock where
  param_page_offset : Nat
  memory_map_offset : Nat
  param_area_size : Nat
  kernel_base : Nat
  kernel_size : Nat
  cpuid_page : Nat
  secrets_page : Nat
deriving DecidableEq, Repr

/-- Modelled from the spec: the secondary header (`igvm_params::IgvmParamPage`,
outside `src/`); only the default-shared-pages field is consumed. -/
structure IgvmParamPage where
  default_shared_pages : Nat
deriving DecidableEq, Repr

/-- Modelled from the spec: `crate::error::SvsmError` (outside `src/`);
only the firmware data-integrity violation kind is raised by this module. -/
inductive SvsmError where
  | Firmware
deriving DecidableEq, Repr

/-- Modelled from the spec: `crate::utils::MemoryRegion` (outside `src/`),
a Derived Region — a (start, length) pair in byte units, as constructed by
`MemoryRegion::new(start, size)`. -/
structure MemoryRegion where
  start : Nat
  size : Nat
deriving DecidableEq, Repr

/-- The `IgvmParams` façade: borrowed views of the three blob regions. -/
structure IgvmParams where
  igvm_param_block : IgvmParamBlock
  igvm_param_page : IgvmParamPage
  igvm_memory_map : IgvmMemoryMap

/-- Modelled from the spec: raw guest memory behind the unsafe pointer
reinterpretations of `IgvmParams::new` (`VirtAddr::as_ptr`, outside `src/`),
abstracted as the typed view decoded at each virtual address. -/
structure Memory where
  readParamBlock : Nat → IgvmParamBlock
  readParamPage : Nat → IgvmParamPage
  readMemoryMap : Nat → IgvmMemoryMap

/-- `IgvmParams::new(addr)`: reinterpret `addr` as the param block, then the
secondary header at `addr + param_page_offset` and the memory map at
`addr + memory_map_offset`.  Construction has no failure path. -/
def IgvmParams.new (mem : Memory) (addr : Nat) : IgvmParams :=
  let param_block := mem.readParamBlock addr
  let param_page := mem.readParamPage (addr + param_block.param_page_offset)
  let memory_map := mem.readMemoryMap (addr + param_block.memory_map_offset)
  ⟨param_block, param_page, memory_map⟩

/-- `IgvmParams::size()`: the total size of the parameter area. -/
def IgvmParams.size (p : IgvmParams) : Nat :=
  p.igvm_param_block.param_area_size

/-- `IgvmParams::find_kernel_region()`: always `Ok` of the kernel region. -/
def IgvmParams.find_kernel_region (p : IgvmParams) :
    Except SvsmError MemoryRegion :=
  Except.ok ⟨p.igvm_param_block.kernel_base, p.igvm_param_block.kernel_size⟩

/-- `IgvmParams::page_state_change_required()`. -/
def IgvmParams.page_state_change_required (p : IgvmParams) : Bool :=
  p.igvm_param_page.default_shared_pages != 0

/-- `IgvmParams::get_cpuid_page_address()`. -/
def IgvmParams.get_cpuid_page_address (p : IgvmParams) : Nat :=
  p.igvm_param_block.cpuid_page

/-- `IgvmParams::get_secrets_page_address()`. -/
def IgvmParams.get_secrets_page_address (p : IgvmParams) : Nat :=
  p.igvm_param_block.secrets_page

/-- `next_supplied_page_number` for one entry:
`entry.starting_gpa_page_number + entry.number_of_pages` in wrapping `u64`
arithmetic. -/
def entryHwm (e : IGVM_VHS_MEMORY_MAP_ENTRY) : Nat :=
  (e.starting_gpa_page_number + e.number_of_pages) % U64_LIMIT

/-- Pass 1 of `get_memory_regions`: walk the table slots in order with the
running high-water mark `next_page_number`; `none` models `Err(Firmware)`,
`some n` the count `number_of_entries` of populated entries accepted before
the first zero-page-count entry (or the end of the array). -/
def countValidate :
    List IGVM_VHS_MEMORY_MAP_ENTRY → Nat → Option Nat
  | [], _ => some 0
  | e :: rest, next_page_number =>
    if e.number_of_pages = 0 then
      some 0
    else if e.starting_gpa_page_number < next_page_number then
      none
    else if entryHwm e < next_page_number then
      none
    else
      (countValidate rest (entryHwm e)).map (· + 1)

/-- The byte-unit region built from one entry in pass 2:
`MemoryRegion::new(PhysAddr::new(starting_page * PAGE_SIZE), number_of_pages * PAGE_SIZE)`
with wrapping `usize` multiplication. -/
def toMemoryRegion (e : IGVM_VHS_MEMORY_MAP_ENTRY) : MemoryRegion :=
  ⟨e.starting_gpa_page_number * PAGE_SIZE % U64_LIMIT,
   e.number_of_pages * PAGE_SIZE % U64_LIMIT⟩

/-- Pass 2 of `get_memory_regions`: walk the first `n` entries, appending a
region for each entry of type `MEMORY` in table order. -/
def extractRegions :
    List IGVM_VHS_MEMORY_MAP_ENTRY → Nat → List MemoryRegion
  | _, 0 => []
  | [], _ + 1 => []
  | e :: rest, n + 1 =>
    if e.entry_type = MemoryMapEntryType.MEMORY then
      toMemoryRegion e :: extractRegions rest n
    else
      extractRegions rest n

/-- `IgvmParams::get_memory_regions()`: validate and count the populated
entries, then extract a byte-unit region for each usable-memory entry. -/
def IgvmParams.get_memory_regions (p : IgvmParams) :
    Except SvsmError (List MemoryRegion) :=
  match countValidate p.igvm_memory_map.memory_map 0 with
  | none => Except.error SvsmError.Firmware
  | some number_of_entries =>
      Except.ok (extractRegions p.igvm_memory_map.memory_map number_of_entries)

/-- The number of table slots walked before the first zero-page-count entry
(or the whole table when no slot is zero): the claims' notion of "populated
entries". -/
def populatedLen : List IGVM_VHS_MEMORY_MAP_ENTRY → Nat
  | [] => 0
  | e :: rest => if e.number_of_pages = 0 then 0 else populatedLen rest + 1

/-- The high-water mark in force when slot `i` is examined, for a walk whose
initial `next_page_number` is `npn`: `npn` for `i = 0`, and the previous
entry's wrapped `start + length` for `i ≥ 1`. -/
def hwmFrom (npn : Nat) (es : List IGVM_VHS_MEMORY_MAP_ENTRY) :
    Nat → Nat
  | 0 => npn
  | j + 1 =>
    match es[j]? with
    | some e => entryHwm e
    | none => 0

/-- Slot `i` violates the pass-1 checks: its starting page number is below
the high-water mark, or its wrapped `start + length` is. -/
def violatesFrom (npn : Nat) (es : List IGVM_VHS_MEMORY_MAP_ENTRY)
    (i : Nat) : Bool :=
  match es[i]? with
  | none => false
  | some e =>
    decide (e.starting_gpa_page_number < hwmFrom npn es i) ||
    decide (entryHwm e < hwmFrom npn es i)

/-- Pads a short description of a table out to the fixed capacity with
end-of-list sentinel slots. -/
def padTable (es : List IGVM_VHS_MEMORY_MAP_ENTRY) :
    List IGVM_VHS_MEMORY_MAP_ENTRY :=
  es ++ List.replicate (IGVM_MEMORY_ENTRIES_PER_PAGE - es.length) zeroEntry

/-- A param block with arbitrary (zero) scalar fields, for queries that only
look at the memory map. -/
def dummyBlock : IgvmParamBlock := ⟨0, 0, 0, 0, 0, 0, 0⟩

/-- A param page with the default-shared flag clear. -/
def dummyPage : IgvmParamPage := ⟨0⟩

/-! ### Helper lemmas about the two passes -/

theorem hwmFrom_cons (npn : Nat) (e : IGVM_VHS_MEMORY_MAP_ENTRY)
    (rest : List IGVM_VHS_MEMORY_MAP_ENTRY) (j : Nat) :
    hwmFrom npn (e :: rest) (j + 1) = hwmFrom (entryHwm e) rest j := by
  cases j with
  | zero => simp [hwmFrom]
  | succ k => simp [hwmFrom, List.getElem?_cons_succ]

theorem violatesFrom_cons (npn : Nat) (e : IGVM_VHS_MEMORY_MAP_ENTRY)
    (rest : List IGVM_VHS_MEMORY_MAP_ENTRY) (j : Nat) :
    violatesFrom npn (e :: rest) (j + 1) = violatesFrom (entryHwm e) rest j := by
  simp only [violatesFrom, List.getElem?_cons_succ, hwmFrom_cons]

theorem violatesFrom_zero_cons (npn : Nat) (e : IGVM_VHS_MEMORY_MAP_ENTRY)
    (rest : List IGVM_VHS_MEMORY_MAP_ENTRY) :
    violatesFrom npn (e :: rest) 0 =
      (decide (e.starting_gpa_page_number < npn) || decide (entryHwm e < npn)) := by
  simp [violatesFrom, hwmFrom]

/-- Pass 1 fails exactly when some slot before the first zero-page-count slot
violates the high-water-mark checks. -/
theorem countValidate_eq_none_iff (es : List IGVM_VHS_MEMORY_MAP_ENTRY)
    (npn : Nat) :
    countValidate es npn = none ↔
      ∃ i, i < populatedLen es ∧ violatesFrom npn es i = true := by
  induction es generalizing npn with
  | nil =>
    simp [countValidate, populatedLen]
  | cons e rest ih =>
    by_cases h0 : e.number_of_pages = 0
    · simp [countValidate, populatedLen, h0]
    · by_cases h1 : e.starting_gpa_page_number < npn
      · simp only [countValidate, if_neg h0, if_pos h1]
        constructor
        · intro _
          refine ⟨0, ?_, ?_⟩
          · simp [populatedLen, h0]
          · simp [violatesFrom_zero_cons, h1]
        · intro _
          trivial
      · by_cases h2 : entryHwm e < npn
        · simp only [countValidate, if_neg h0, if_neg h1, if_pos h2]
          constructor
          · intro _
            refine ⟨0, ?_, ?_⟩
            · simp [populatedLen, h0]
            · simp [violatesFrom_zero_cons, h2]
          · intro _
            trivial
        · simp only [countValidate, if_neg h0, if_neg h1, if_neg h2,
            Option.map_eq_none']
          rw [ih (entryHwm e)]
          constructor
          · rintro ⟨j, hj, hv⟩
            refine ⟨j + 1, ?_, ?_⟩
            · simp [populatedLen, h0]; omega
            · rw [violatesFrom_cons]; exact hv
          · rintro ⟨i, hi, hv⟩
            cases i with
            | zero =>
              rw [violatesFrom_zero_cons] at hv
              simp [h1, h2] at hv
            | succ j =>
              refine ⟨j, ?_, ?_⟩
              · simp [populatedLen, h0] at hi; omega
              · rw [violatesFrom_cons] at hv; exact hv

/-- The accepted-entry count never exceeds the number of table slots. -/
theorem countValidate_le_length (es : List IGVM_VHS_MEMORY_MAP_ENTRY) :
    ∀ npn n, countValidate es npn = some n → n ≤ es.length := by
  induction es with
  | nil =>
    intro npn n h
    simp [countValidate] at h
    omega
  | cons e rest ih =>
    intro npn n h
    simp only [countValidate] at h
    split at h
    · simp at h; omega
    · split at h
      · cases h
      · split at h
        · cases h
        · rw [Option.map_eq_some'] at h
          obtain ⟨m, hm, rfl⟩ := h
          have := ih _ _ hm
          simp [List.length_cons]
          omega

/-- Pass 2 is extraction: take the accepted entries, keep the
usable-memory ones, convert each to byte units, preserving table order. -/
theorem extractRegions_eq (es : List IGVM_VHS_MEMORY_MAP_ENTRY) (n : Nat) :
    extractRegions es n =
      ((es.take n).filter
        (fun e => decide (e.entry_type = MemoryMapEntryType.MEMORY))).map
        toMemoryRegion := by
  induction es generalizing n with
  | nil => cases n <;> simp [extractRegions]
  | cons e rest ih =>
    cases n with
    | zero => simp [extractRegions]
    | succ m =>
      by_cases ht : e.entry_type = MemoryMapEntryType.MEMORY
      · simp [extractRegions, ht, ih, List.filter_cons]
      · simp [extractRegions, ht, ih, List.filter_cons]

/-! ### Concrete tables used to instantiate the claims -/

set_option maxRecDepth 8192

/-- Strictly increasing table: (page 0, 10 pages, usable),
(page 10, 5 pages, reserved), (page 15, 20 pages, usable), end-of-list. -/
def mmIncreasing : IgvmMemoryMap :=
  ⟨padTable
    [⟨0, 10, MemoryMapEntryType.MEMORY⟩,
     ⟨10, 5, MemoryMapEntryType.PLATFORM_RESERVED⟩,
     ⟨15, 20, MemoryMapEntryType.MEMORY⟩], by rfl⟩

/-- Façade over `mmIncreasing`. -/
def pIncreasing : IgvmParams := ⟨dummyBlock, dummyPage, mmIncreasing⟩

/-- Table whose first slot is the end-of-list sentinel, followed only by
garbage slots (overlapping populated entries). -/
def mmEmptyFirst : IgvmMemoryMap :=
  ⟨zeroEntry :: List.replicate 169 ⟨9, 7, MemoryMapEntryType.MEMORY⟩, by rfl⟩

/-- Façade over `mmEmptyFirst`. -/
def pEmptyFirst : IgvmParams := ⟨dummyBlock, dummyPage, mmEmptyFirst⟩

/-! ### Claims -/

/-- C1: `get_memory_regions` returns the firmware data-integrity error if and
only if, walking the table slots in order from index 0 and stopping at the
first zero-page-count entry, some populated slot `i` has a starting page
number below the running high-water mark (the previous entry's wrapped
`start + length`, initialized to 0), or its own wrapped `start + length`
falls below that mark; the failing result is the single `Firmware` error
kind and, being an `error`, carries no partial region list. -/
theorem get_memory_regions_error_iff (p : IgvmParams) :
    p.get_memory_regions = Except.error SvsmError.Firmware ↔
      ∃ i, i < populatedLen p.igvm_memory_map.memory_map ∧
        violatesFrom 0 p.igvm_memory_map.memory_map i = true := by
  rw [← countValidate_eq_none_iff]
  unfold IgvmParams.get_memory_regions
  cases h : countValidate p.igvm_memory_map.memory_map 0 <;> simp

/-- C3: the table (page 0, 10 pages, usable), (page 10, 5 pages, reserved),
(page 15, 20 pages, usable), end-of-list, is accepted and yields exactly the
two byte regions `[0, 10*PAGE_SIZE)` and `[15*PAGE_SIZE, 35*PAGE_SIZE)`
(start `15*PAGE_SIZE`, size `20*PAGE_SIZE`), in that order. -/
theorem increasing_table_two_regions :
    pIncreasing.get_memory_regions =
      Except.ok [⟨0, 10 * PAGE_SIZE⟩, ⟨15 * PAGE_SIZE, 20 * PAGE_SIZE⟩] := by
  rfl

/-- C4: whenever the first table slot has a zero page count,
`get_memory_regions` returns an empty region list and no error, whatever the
remaining slots hold. -/
theorem empty_first_entry_empty_regions (p : IgvmParams)
    (e : IGVM_VHS_MEMORY_MAP_ENTRY) (rest : List IGVM_VHS_MEMORY_MAP_ENTRY)
    (hmm : p.igvm_memory_map.memory_map = e :: rest)
    (h0 : e.number_of_pages = 0) :
    p.get_memory_regions = Except.ok [] := by
  unfold IgvmParams.get_memory_regions
  rw [hmm]
  simp [countValidate, h0, extractRegions]

/-- Witness for C4: a table whose first slot is the sentinel and whose
remaining 169 slots are overlapping garbage yields `Ok []`. -/
theorem empty_first_entry_empty_regions_witness :
    pEmptyFirst.get_memory_regions = Except.ok [] :=
  empty_first_entry_empty_regions pEmptyFirst zeroEntry
    (List.replicate 169 ⟨9, 7, MemoryMapEntryType.MEMORY⟩) rfl rfl

/-- C6: the scalar queries are pure pass-throughs of the header fields and
never fail: `size` is `param_area_size`, `find_kernel_region` is always `Ok`
of (kernel_base, kernel_size), the two special-page queries return the stored
addresses, and `page_state_change_required` is true iff
`default_shared_pages` is non-zero. -/
theorem scalar_queries_pass_through (p : IgvmParams) :
    p.size = p.igvm_param_block.param_area_size ∧
    p.find_kernel_region =
      Except.ok ⟨p.igvm_param_block.kernel_base, p.igvm_param_block.kernel_size⟩ ∧
    p.get_cpuid_page_address = p.igvm_param_block.cpuid_page ∧
    p.get_secrets_page_address = p.igvm_param_block.secrets_page ∧
    (p.page_state_change_required = true ↔
      p.igvm_param_page.default_shared_pages ≠ 0) := by
  refine ⟨rfl, rfl, rfl, rfl, ?_⟩
  simp [IgvmParams.page_state_change_required]

/-- C8: construction never fails and locates the views by the header's
offsets: `new mem addr` reads the param block at `addr`, the param page at
`addr + param_page_offset`, the memory map at `addr + memory_map_offset`,
and the subsequent queries are functions of exactly those located views. -/
theorem new_locates_views (mem : Memory) (addr : Nat) :
    (IgvmParams.new mem addr).igvm_param_block = mem.readParamBlock addr ∧
    (IgvmParams.new mem addr).igvm_param_page =
      mem.readParamPage (addr + (mem.readParamBlock addr).param_page_offset) ∧
    (IgvmParams.new mem addr).igvm_memory_map =
      mem.readMemoryMap (addr + (mem.readParamBlock addr).memory_map_offset) ∧
    (IgvmParams.new mem addr).page_state_change_required =
      ((mem.readParamPage
        (addr + (mem.readParamBlock addr).param_page_offset)).default_shared_pages != 0) ∧
    (IgvmParams.new mem addr).get_memory_regions =
      IgvmParams.get_memory_regions
        ⟨mem.readParamBlock addr,
         mem.readParamPage (addr + (mem.readParamBlock addr).param_page_offset),
         mem.readMemoryMap (addr + (mem.readParamBlock addr).memory_map_offset)⟩ :=
  ⟨rfl, rfl, rfl, rfl, rfl⟩

/-- Table with entries (start `2^64 - 1`, 2 pages, usable) and
(start 5, 1 page, usable): the first entry's `start + length` wraps to 1,
which is not below the initial high-water mark 0, so both entries pass the
validation checks. -/
def mmWrapOrder : IgvmMemoryMap :=
  ⟨padTable
    [⟨2 ^ 64 - 1, 2, MemoryMapEntryType.MEMORY⟩,
     ⟨5, 1, MemoryMapEntryType.MEMORY⟩], by rfl⟩

/-- Façade over `mmWrapOrder`. -/
def pWrapOrder : IgvmParams := ⟨dummyBlock, dummyPage, mmWrapOrder⟩

/-- C2 fails on the code: the wrapping table `mmWrapOrder` is accepted and
two regions are returned, yet in exact (non-wrapping) arithmetic
`start(1) = 5 < start(0) + len(0) = 2^64 + 1`, so the accepted populated
entries are not strictly ordered and non-overlapping.  (The code's own
comment demands entries be "non-overlapping and strictly increasing".) -/
theorem wrap_accepted_breaks_exact_ordering :
    pWrapOrder.get_memory_regions =
      Except.ok [⟨(2 ^ 64 - 1) * PAGE_SIZE % U64_LIMIT, 2 * PAGE_SIZE⟩,
                 ⟨5 * PAGE_SIZE, 1 * PAGE_SIZE⟩] ∧
    (mmWrapOrder.memory_map[1]!).starting_gpa_page_number <
      (mmWrapOrder.memory_map[0]!).starting_gpa_page_number +
        (mmWrapOrder.memory_map[0]!).number_of_pages := by
  refine ⟨rfl, ?_⟩
  decide

/-- C5: whenever `get_memory_regions` succeeds, the region list is exactly
the usable-memory (`MEMORY`-typed) subsequence of the accepted entries, in
table order, each converted to byte units by the page-size multiplication;
entries of other types are consumed by validation but never emitted. -/
theorem success_regions_filter_map (p : IgvmParams)
    (regions : List MemoryRegion)
    (h : p.get_memory_regions = Except.ok regions) :
    ∃ n, countValidate p.igvm_memory_map.memory_map 0 = some n ∧
      regions =
        ((p.igvm_memory_map.memory_map.take n).filter
          (fun e => decide (e.entry_type = MemoryMapEntryType.MEMORY))).map
          toMemoryRegion := by
  unfold IgvmParams.get_memory_regions at h
  cases hc : countValidate p.igvm_memory_map.memory_map 0 with
  | none =>
    rw [hc] at h
    simp at h
  | some n =>
    rw [hc] at h
    simp only [Except.ok.injEq] at h
    exact ⟨n, rfl, by rw [← h]; exact extractRegions_eq p.igvm_memory_map.memory_map n⟩

/-- Table mixing a reserved entry and a usable-memory entry. -/
def mmFilter : IgvmMemoryMap :=
  ⟨padTable
    [⟨0, 1, MemoryMapEntryType.PLATFORM_RESERVED⟩,
     ⟨1, 1, MemoryMapEntryType.MEMORY⟩], by rfl⟩

/-- Façade over `mmFilter`. -/
def pFilter : IgvmParams := ⟨dummyBlock, dummyPage, mmFilter⟩

/-- Witness for C5: on `mmFilter` the query succeeds with the single region
of its usable-memory entry; the reserved entry is filtered out. -/
theorem success_regions_filter_map_witness :
    ∃ n, countValidate pFilter.igvm_memory_map.memory_map 0 = some n ∧
      ([⟨1 * PAGE_SIZE, 1 * PAGE_SIZE⟩] : List MemoryRegion) =
        ((pFilter.igvm_memory_map.memory_map.take n).filter
          (fun e => decide (e.entry_type = MemoryMapEntryType.MEMORY))).map
          toMemoryRegion :=
  success_regions_filter_map pFilter [⟨1 * PAGE_SIZE, 1 * PAGE_SIZE⟩] (by rfl)

/-- Table with entries (start `2^64 - 1`, 2 pages, usable) and
(start 5, 3 pages, usable), both accepted through wraparound. -/
def mmWrapDescending : IgvmMemoryMap :=
  ⟨padTable
    [⟨2 ^ 64 - 1, 2, MemoryMapEntryType.MEMORY⟩,
     ⟨5, 3, MemoryMapEntryType.MEMORY⟩], by rfl⟩

/-- Façade over `mmWrapDescending`. -/
def pWrapDescending : IgvmParams := ⟨dummyBlock, dummyPage, mmWrapDescending⟩

/-- C7 fails on the code: the accepted wrapping table `mmWrapDescending`
succeeds with two regions whose byte start addresses are descending
(`2^64 - 4096`, then `20480`). -/
theorem wrap_accepted_descending_output :
    ∃ r0 r1, pWrapDescending.get_memory_regions = Except.ok [r0, r1] ∧
      r1.start < r0.start := by
  refine ⟨⟨(2 ^ 64 - 1) * PAGE_SIZE % U64_LIMIT, 2 * PAGE_SIZE⟩,
    ⟨5 * PAGE_SIZE, 3 * PAGE_SIZE⟩, rfl, ?_⟩
  decide

/-- C9: the scan is capacity-bounded: whenever pass 1 accepts `n` entries,
`n` is at most `IGVM_MEMORY_ENTRIES_PER_PAGE`, the query returns (totally)
the extraction of those first `n` slots, and the output list also has at
most `IGVM_MEMORY_ENTRIES_PER_PAGE` regions. -/
theorem scan_bounded (p : IgvmParams) (n : Nat)
    (h : countValidate p.igvm_memory_map.memory_map 0 = some n) :
    n ≤ IGVM_MEMORY_ENTRIES_PER_PAGE ∧
    p.get_memory_regions =
      Except.ok (extractRegions p.igvm_memory_map.memory_map n) ∧
    (extractRegions p.igvm_memory_map.memory_map n).length ≤
      IGVM_MEMORY_ENTRIES_PER_PAGE := by
  have hlen := countValidate_le_length p.igvm_memory_map.memory_map 0 n h
  rw [p.igvm_memory_map.size_eq] at hlen
  refine ⟨hlen, ?_, ?_⟩
  · unfold IgvmParams.get_memory_regions
    rw [h]
  · rw [extractRegions_eq]
    have hf := List.length_filter_le
      (fun e => decide (e.entry_type = MemoryMapEntryType.MEMORY))
      (p.igvm_memory_map.memory_map.take n)
    have ht := List.length_take_le n p.igvm_memory_map.memory_map
    rw [List.length_map]
    omega

/-- Witness for C9: on `mmIncreasing` pass 1 accepts three entries, within
the 170-entry capacity, and the output has at most 170 regions. -/
theorem scan_bounded_witness :
    3 ≤ IGVM_MEMORY_ENTRIES_PER_PAGE ∧
    pIncreasing.get_memory_regions =
      Except.ok (extractRegions pIncreasing.igvm_memory_map.memory_map 3) ∧
    (extractRegions pIncreasing.igvm_memory_map.memory_map 3).length ≤
      IGVM_MEMORY_ENTRIES_PER_PAGE :=
  scan_bounded pIncreasing 3 (by rfl)

/-- C10: when slot 0 is the only populated slot (slot 1 has a zero page
count), `get_memory_regions` never returns an error, for every starting page
number and every non-zero page count of slot 0, with the `u64` sum taken
modulo 2^64: against the initial high-water mark 0 neither rejection check
can fire, even when `start + length` wraps. -/
theorem single_entry_never_error (p : IgvmParams)
    (e z : IGVM_VHS_MEMORY_MAP_ENTRY) (rest : List IGVM_VHS_MEMORY_MAP_ENTRY)
    (hmm : p.igvm_memory_map.memory_map = e :: z :: rest)
    (hne : e.number_of_pages ≠ 0)
    (hz : z.number_of_pages = 0) :
    ∃ rs, p.get_memory_regions = Except.ok rs := by
  refine ⟨extractRegions (e :: z :: rest) 1, ?_⟩
  unfold IgvmParams.get_memory_regions
  rw [hmm]
  simp [countValidate, hne, hz]

/-- Single-entry table whose entry wraps: start `2^64 - 1`,
page count `2^64 - 1`. -/
def mmSingleWrap : IgvmMemoryMap :=
  ⟨padTable [⟨2 ^ 64 - 1, 2 ^ 64 - 1, MemoryMapEntryType.MEMORY⟩], by rfl⟩

/-- Façade over `mmSingleWrap`. -/
def pSingleWrap : IgvmParams := ⟨dummyBlock, dummyPage, mmSingleWrap⟩

/-- Witness for C10: the maximally wrapping single entry
(start `2^64 - 1`, `2^64 - 1` pages) is accepted without error. -/
theorem single_entry_never_error_witness :
    ∃ rs, pSingleWrap.get_memory_regions = Except.ok rs :=
  single_entry_never_error pSingleWrap
    ⟨2 ^ 64 - 1, 2 ^ 64 - 1, MemoryMapEntryType.MEMORY⟩ zeroEntry
    (List.replicate 168 zeroEntry) (by rfl) (by decide) rfl

end Svsm
